import Mathlib

/-!
Verification development for the trmnl-woocommerce pipeline (src/main.py).

The single source file fetches WooCommerce orders and products over a
paginated REST API, reduces them to summary metrics, and posts the result
to a webhook.  This file gives a shallow embedding of that program:

* the upstream API is a function from page numbers to responses
  (HTTP status plus a JSON-array body);
* the two pagination loops of get_woocommerce_data are the function
  fetchGo, recursing on the remaining page budget;
* the metric computation of get_woocommerce_data is computeMetrics,
  with Python exceptions modelled as Option;
* Python float values arising from order totals are modelled as exact
  decimal numbers (integer mantissa over a power of ten), which agrees
  with float arithmetic on all two-decimal monetary inputs considered;
* send_to_trmnl is sendToTrmnl, with the network modelled as a function
  from payload to response status.
-/

namespace Woo

/-- Exact decimal number, value mant / 10 ^ exp.  Models the Python float
values produced by float() on decimal strings in src/main.py line 74. -/
structure Money where
  mant : Int
  exp : Nat
deriving DecidableEq, Repr

/-- Addition of exact decimals, aligning to the larger denominator.  Models
Python float addition in the sum on line 74 (exact on decimal inputs). -/
def Money.add (a b : Money) : Money :=
  let e := max a.exp b.exp
  ⟨a.mant * (10 : Int) ^ (e - a.exp) + b.mant * (10 : Int) ^ (e - b.exp), e⟩

/-- Numeric value of a digit character. -/
def digitVal (c : Char) : Nat := c.toNat - 48

/-- Value of a digit string, most significant digit first. -/
def digitsVal (l : List Char) : Nat := l.foldl (fun a c => 10 * a + digitVal c) 0

/-- Parse an unsigned decimal literal, as accepted by Python float() on the
order total strings of the WooCommerce API (optional single dot; exponent
forms and whitespace are outside the model). -/
def parseUnsigned (cs : List Char) : Option Money :=
  match cs.span (fun c => c != '.') with
  | (ip, []) =>
      if !ip.isEmpty && ip.all Char.isDigit then
        some ⟨(digitsVal ip : Int), 0⟩
      else none
  | (ip, _ :: fp) =>
      if !(ip.isEmpty && fp.isEmpty) && ip.all Char.isDigit && fp.all Char.isDigit then
        some ⟨((digitsVal ip * 10 ^ fp.length + digitsVal fp : Nat) : Int), fp.length⟩
      else none

/-- Model of Python float(s) for a string s: some value on a plain decimal
literal with optional sign, none when float() would raise ValueError. -/
def parseDec (s : String) : Option Money :=
  match s.data with
  | '-' :: rest => (parseUnsigned rest).map (fun d => ⟨-d.mant, d.exp⟩)
  | '+' :: rest => parseUnsigned rest
  | cs => parseUnsigned cs

/-- Line item of an order; quantity as in item.get("quantity", 0)
(src/main.py line 87), absent field modelled as none. -/
structure LineItem where
  quantity : Option Int
deriving DecidableEq, Repr

/-- Order record with the fields read by src/main.py: status
(order.get("status")), total (order.get("total", 0), none when the field
is absent), and line_items (order.get("line_items", [])). -/
structure Order where
  status : Option String
  total : Option String
  line_items : List LineItem
deriving DecidableEq, Repr

/-- Product record with the fields read by src/main.py lines 122-137:
name, stock_quantity (none when null), low_stock_amount (none when null). -/
structure Product where
  name : Option String
  stock_quantity : Option Int
  low_stock_amount : Option Int
deriving DecidableEq, Repr

/-- Entry of the low_stock_products list built on src/main.py lines 133-137. -/
structure LowStockEntry where
  name : String
  stock : Int
  threshold : Int
deriving DecidableEq, Repr

/-- The merge_variables record assembled on src/main.py lines 145-157. -/
structure Metrics where
  total_sales : String
  total_orders : Nat
  products_sold : Int
  pending_orders : Nat
  processing_orders : Nat
  fulfilled_orders : Nat
  low_stock_count : Nat
  low_stock_items : List LowStockEntry
  last_updated : String
deriving DecidableEq, Repr

/-- The payload sent to the webhook: merge_variables wrapper (line 145). -/
structure TrmnlData where
  merge_variables : Metrics
deriving DecidableEq, Repr

/-- One page response from the upstream API: HTTP status code and the
JSON array body. -/
structure PageResp (α : Type) where
  status : Nat
  body : List α
deriving DecidableEq, Repr

/-- Outcome of one pagination loop: accumulated records, number of page
requests issued, whether the loop stopped on a non-200 status (the error
branch on lines 54-57 resp. 104-106), and whether it stopped on the page
safety limit (lines 69-71 resp. 116-117). -/
structure FetchResult (α : Type) where
  records : List α
  requests : Nat
  errored : Bool
  hitLimit : Bool
deriving DecidableEq, Repr

/-- The pagination loop body of src/main.py lines 46-71 and 96-117:
request the current page; on non-200 status break; on an empty page break;
otherwise accumulate and continue, breaking with the limit flag once the
page counter would exceed the safety limit.  The fuel argument is the
number of pages that may still be requested after the current one, so the
loop for limit L starts with fuel L - 1 at page 1. -/
def fetchGo (api : Nat → PageResp α) : Nat → Nat → List α → Nat → FetchResult α
  | 0, page, acc, reqs =>
      if (api page).status ≠ 200 then ⟨acc, reqs + 1, true, false⟩
      else
        match (api page).body with
        | [] => ⟨acc, reqs + 1, false, false⟩
        | b :: bs => ⟨acc ++ (b :: bs), reqs + 1, false, true⟩
  | fuel + 1, page, acc, reqs =>
      if (api page).status ≠ 200 then ⟨acc, reqs + 1, true, false⟩
      else
        match (api page).body with
        | [] => ⟨acc, reqs + 1, false, false⟩
        | b :: bs => fetchGo api fuel (page + 1) (acc ++ (b :: bs)) (reqs + 1)

/-- Run a pagination loop with the given page safety limit, starting at
page 1 with nothing accumulated. -/
def fetchPaged (api : Nat → PageResp α) (limit : Nat) : FetchResult α :=
  fetchGo api (limit - 1) 1 [] 0

/-- The orders loop of src/main.py lines 46-71: safety limit 100 pages. -/
def ordersFetch (api : Nat → PageResp Order) : FetchResult Order :=
  fetchPaged api 100

/-- The products loop of src/main.py lines 96-117: safety limit 5 pages. -/
def productsFetch (api : Nat → PageResp Product) : FetchResult Product :=
  fetchPaged api 5

/-- In-order concatenation of the bodies of n pages starting at the given
page number. -/
def pagesJoin (api : Nat → PageResp α) (start n : Nat) : List α :=
  ((List.range n).map (fun i => (api (start + i)).body)).flatten

/-- float(order.get("total", 0)) of src/main.py line 74: an absent total
field defaults to 0; a present total string is parsed, none modelling the
ValueError raised on a non-numeric value. -/
def orderTotal (o : Order) : Option Money :=
  match o.total with
  | none => some ⟨0, 0⟩
  | some s => parseDec s

/-- The sum on src/main.py line 74: total of every fetched order is parsed
and summed; any parse failure aborts the whole computation (the generator
raises inside sum). -/
def totalSales : List Order → Option Money
  | [] => some ⟨0, 0⟩
  | o :: rest =>
      match orderTotal o, totalSales rest with
      | some t, some s => some (t.add s)
      | _, _ => none

/-- Units in one order: sum of line item quantities, absent quantity
counting 0 (src/main.py lines 86-87). -/
def orderUnits (o : Order) : Int :=
  (o.line_items.map (fun it => it.quantity.getD 0)).sum

/-- products_sold of src/main.py lines 84-87: summed over every fetched
order, with no status filter. -/
def productsSold (orders : List Order) : Int :=
  (orders.map orderUnits).sum

/-- Count of orders whose status equals the given string, as in the
generator expressions on src/main.py lines 78-80. -/
def countStatus (orders : List Order) (st : String) : Nat :=
  orders.countP (fun o => o.status == some st)

/-- The client-side low stock filter of src/main.py lines 124-137: a
product enters the list when its stock_quantity is a present number q with
q ≤ threshold and q ≥ 0, where threshold is low_stock_amount defaulting
to 5 when null. -/
def lowStockEntry (p : Product) : Option LowStockEntry :=
  match p.stock_quantity with
  | none => none
  | some q =>
      let thr := p.low_stock_amount.getD 5
      if q ≤ thr ∧ 0 ≤ q then some ⟨p.name.getD "Unknown", q, thr⟩ else none

/-- All low stock entries of a fetched product collection (line 133). -/
def lowStockAll (ps : List Product) : List LowStockEntry :=
  ps.filterMap lowStockEntry

/-- Insertion into an ascending list, placing the new element before any
element of equal stock; together with sortByStock this models the stable
ascending sort of Python list.sort with the stock key (src/main.py
line 140). -/
def insertByStock (x : LowStockEntry) : List LowStockEntry → List LowStockEntry
  | [] => [x]
  | y :: ys => if y.stock < x.stock then y :: insertByStock x ys else x :: y :: ys

/-- Stable ascending insertion sort by stock quantity. -/
def sortByStock : List LowStockEntry → List LowStockEntry
  | [] => []
  | x :: xs => insertByStock x (sortByStock xs)

/-- The sort on src/main.py line 140: ascending by stock quantity. -/
def lowStockSorted (ps : List Product) : List LowStockEntry :=
  sortByStock (lowStockAll ps)

/-- Two-digit zero-padded rendering of a value below 100. -/
def pad2 (n : Nat) : String :=
  if n < 10 then "0" ++ toString n else toString n

/-- Insert a comma after every third character of a reversed digit list
that is followed by more characters; helper for thousands grouping. -/
def commaRev : List Char → List Char
  | d₁ :: d₂ :: d₃ :: d₄ :: rest => d₁ :: d₂ :: d₃ :: ',' :: commaRev (d₄ :: rest)
  | l => l

/-- Decimal rendering of a natural number with comma thousands separators,
as produced by the Python format specifier with a comma. -/
def commaGroup (n : Nat) : String :=
  String.mk (((toString n).data.reverse |> commaRev).reverse)

/-- Cents value of an exact decimal, rounded to the nearest integer with
halves up: the floor of 100 * v + 1/2 computed on integers.  Models the
two-decimal rounding of the Python format specifier (which differs only
on ties that two-decimal monetary inputs never produce). -/
def moneyCents (d : Money) : Int :=
  Int.fdiv (200 * d.mant + 10 ^ d.exp) (2 * 10 ^ d.exp)

/-- The f-string on src/main.py line 147: a hard-coded dollar sign followed
by the amount with comma grouping and two decimals. -/
def formatUSD (d : Money) : String :=
  let c := moneyCents d
  "$" ++ (if c < 0 then "-" else "")
    ++ commaGroup (c.natAbs / 100) ++ "." ++ pad2 (c.natAbs % 100)

/-- The metric computation of src/main.py lines 74-157 on the fetched
order and product records: none models the exception path (line 161) taken
when a present order total fails to parse, in which case no record is
produced. -/
def computeMetrics (orders : List Order) (products : List Product)
    (now : String) : Option Metrics :=
  match totalSales orders with
  | none => none
  | some ts =>
      let low := lowStockSorted products
      some
        { total_sales := formatUSD ts
          total_orders := orders.length
          products_sold := productsSold orders
          pending_orders := countStatus orders "pending"
          processing_orders := countStatus orders "processing"
          fulfilled_orders := countStatus orders "completed"
          low_stock_count := low.length
          low_stock_items := low.take 5
          last_updated := now }

/-- The upstream WooCommerce API, one page function per resource. -/
structure Upstream where
  ordersApi : Nat → PageResp Order
  productsApi : Nat → PageResp Product

/-- get_woocommerce_data of src/main.py lines 18-163: fetch orders and
products through the pagination loops (a non-200 page stops the loop with
the records accumulated so far) and compute the metrics record; none only
when the metric computation raises. -/
def getWoocommerceData (u : Upstream) (now : String) : Option TrmnlData :=
  (computeMetrics (ordersFetch u.ordersApi).records
      (productsFetch u.productsApi).records now).map (fun m => ⟨m⟩)

/-- Decision made by main (src/main.py lines 199-205): send_to_trmnl is
invoked exactly when get_woocommerce_data returned a record, which is
always truthy. -/
def sendInvoked (u : Upstream) (now : String) : Bool :=
  (getWoocommerceData u now).isSome

/-- The WARNING lines printed during a run: src/main.py line 70 is the only
warning print, emitted exactly when the orders loop hit the 100 page
safety limit; the products loop (line 116) breaks silently. -/
def runWarnings (u : Upstream) : List String :=
  if (ordersFetch u.ordersApi).hitLimit then
    ["WARNING: Reached safety limit of 100 pages. Total orders: "
      ++ toString (ordersFetch u.ordersApi).records.length]
  else []

/-- Observable outcome of send_to_trmnl: the payload POSTed to the network
(none when no POST happened), the payload printed (none when nothing was
printed), and the boolean return value. -/
structure SendOutcome where
  posted : Option TrmnlData
  printed : Option TrmnlData
  success : Bool
deriving DecidableEq, Repr

/-- send_to_trmnl of src/main.py lines 166-192, with the network modelled
as a function from payload to response status: in debug mode print the
payload and return true without posting; otherwise POST the payload and
return whether the response status is 200. -/
def sendToTrmnl (debug : Bool) (net : TrmnlData → Nat) (d : TrmnlData) : SendOutcome :=
  if debug then ⟨none, some d, true⟩
  else ⟨some d, none, decide (net d = 200)⟩

/-- Predicate that every order total parses (no exception on line 74). -/
def totalsOk (orders : List Order) : Prop :=
  ∀ o ∈ orders, (orderTotal o).isSome

instance (orders : List Order) : Decidable (totalsOk orders) := by
  unfold totalsOk; infer_instance

/-- Parsed total of an order under totalsOk, with an irrelevant default. -/
def rawTotal (o : Order) : Money :=
  (orderTotal o).getD ⟨0, 0⟩

/-- Sum of a list of exact decimals. -/
def moneySum (l : List Money) : Money :=
  l.foldr Money.add ⟨0, 0⟩

/-- Formalisation of the wording of the low stock claim, for comparison
with the implemented filter lowStockEntry: a product qualifies when its
stock_quantity is at or below the per-product threshold, the threshold
defaulting to 5 when unset (no non-negativity requirement appears in the
claim). -/
def lowStockSpecEntry (p : Product) : Option LowStockEntry :=
  match p.stock_quantity with
  | none => none
  | some q =>
      let thr := p.low_stock_amount.getD 5
      if q ≤ thr then some ⟨p.name.getD "Unknown", q, thr⟩ else none

/-- All products qualifying under the claim wording. -/
def lowStockSpecAll (ps : List Product) : List LowStockEntry :=
  ps.filterMap lowStockSpecEntry

/-! Concrete data used by witnesses and counterexamples. -/

/-- Upstream whose orders resource answers HTTP 500 on every page and
whose products resource is empty. -/
def u500 : Upstream := ⟨fun _ => ⟨500, []⟩, fun _ => ⟨200, []⟩⟩

/-- A cancelled order with total 10.00 and one line item of quantity 2. -/
def ordCancelled : Order := ⟨some "cancelled", some "10.00", [⟨some 2⟩]⟩

/-- A completed order whose total strings sums to the raw value 1234.5. -/
def ordEUR : Order := ⟨some "completed", some "1234.50", []⟩

/-- An order lacking the total field entirely. -/
def ordNoTotal : Order := ⟨some "pending", none, [⟨some 1⟩]⟩

/-- An order with a present but non-numeric total. -/
def ordBad : Order := ⟨some "completed", some "abc", []⟩

/-- A completed order with two line items, quantities 1 and 3. -/
def ordTwoItems : Order := ⟨some "completed", some "5.00", [⟨some 1⟩, ⟨some 3⟩]⟩

/-- A product with negative stock quantity and no explicit threshold. -/
def prodNeg : Product := ⟨some "Gadget", some (-2), none⟩

/-- A product with stock quantity 3 and no explicit threshold. -/
def prodA : Product := ⟨some "A", some 3, none⟩

/-- Orders upstream serving pages [[oA, oB], [oC], []] with status 200. -/
def apiABC : Nat → PageResp Order := fun n =>
  if n = 1 then ⟨200, [⟨some "completed", some "1.00", []⟩, ⟨some "pending", some "2.00", []⟩]⟩
  else if n = 2 then ⟨200, [⟨some "processing", some "3.00", []⟩]⟩
  else ⟨200, []⟩

/-- Products upstream that never returns an empty page. -/
def apiProdConst : Nat → PageResp Product := fun _ => ⟨200, [prodA]⟩

/-! Helper lemmas about the pagination loop. -/

theorem pagesJoin_zero (api : Nat → PageResp α) (start : Nat) :
    pagesJoin api start 0 = [] := rfl

theorem pagesJoin_succ_left (api : Nat → PageResp α) (start n : Nat) :
    pagesJoin api start (n + 1) = (api start).body ++ pagesJoin api (start + 1) n := by
  unfold pagesJoin
  rw [List.range_succ_eq_map]
  simp only [List.map_cons, List.map_map, List.flatten_cons, Nat.add_zero]
  have hmap : List.map ((fun i => (api (start + i)).body) ∘ Nat.succ) (List.range n)
      = List.map (fun i => (api (start + 1 + i)).body) (List.range n) := by
    apply List.map_congr_left
    intro i _
    have h : start + Nat.succ i = start + 1 + i := by omega
    simp [Function.comp, h]
  rw [hmap]

theorem fetchGo_stop (api : Nat → PageResp α)
    (hstat : ∀ i, (api i).status = 200) :
    ∀ (j fuel page : Nat) (acc : List α) (reqs : Nat), j ≤ fuel →
      (api (page + j)).body = [] →
      (∀ i, i < j → (api (page + i)).body ≠ []) →
      fetchGo api fuel page acc reqs =
        ⟨acc ++ pagesJoin api page j, reqs + j + 1, false, false⟩ := by
  intro j
  induction j with
  | zero =>
      intro fuel page acc reqs _ hempty _
      rw [Nat.add_zero] at hempty
      cases fuel with
      | zero => simp [fetchGo, hstat page, hempty, pagesJoin]
      | succ fuel => simp [fetchGo, hstat page, hempty, pagesJoin]
  | succ j ih =>
      intro fuel page acc reqs hj hempty hne
      have hpage : (api page).body ≠ [] := by
        have h0 := hne 0 (Nat.succ_pos j)
        rwa [Nat.add_zero] at h0
      cases fuel with
      | zero => exact absurd hj (by omega)
      | succ fuel =>
          obtain ⟨b, bs, hb⟩ : ∃ b bs, (api page).body = b :: bs := by
            cases h : (api page).body with
            | nil => exact absurd h hpage
            | cons b bs => exact ⟨b, bs, rfl⟩
          have hrec : fetchGo api (fuel + 1) page acc reqs
              = fetchGo api fuel (page + 1) (acc ++ (b :: bs)) (reqs + 1) := by
            simp [fetchGo, hstat page, hb]
          have hemp : (api (page + 1 + j)).body = [] := by
            have h : page + 1 + j = page + (j + 1) := by omega
            rw [h]; exact hempty
          have hne' : ∀ i, i < j → (api (page + 1 + i)).body ≠ [] := by
            intro i hi
            have h := hne (i + 1) (by omega)
            have h2 : page + 1 + i = page + (i + 1) := by omega
            rw [h2]; exact h
          rw [hrec, ih fuel (page + 1) (acc ++ (b :: bs)) (reqs + 1) (by omega) hemp hne']
          congr 1
          · rw [pagesJoin_succ_left api page j, hb]
            simp [List.append_assoc]
          · omega

theorem fetchGo_limitRun (api : Nat → PageResp α)
    (hstat : ∀ i, (api i).status = 200) :
    ∀ (fuel page : Nat) (acc : List α) (reqs : Nat),
      (∀ i, i ≤ fuel → (api (page + i)).body ≠ []) →
      fetchGo api fuel page acc reqs =
        ⟨acc ++ pagesJoin api page (fuel + 1), reqs + fuel + 1, false, true⟩ := by
  intro fuel
  induction fuel with
  | zero =>
      intro page acc reqs hne
      have hpage : (api page).body ≠ [] := by
        have h0 := hne 0 (le_refl 0)
        rwa [Nat.add_zero] at h0
      obtain ⟨b, bs, hb⟩ : ∃ b bs, (api page).body = b :: bs := by
        cases h : (api page).body with
        | nil => exact absurd h hpage
        | cons b bs => exact ⟨b, bs, rfl⟩
      have h1 : pagesJoin api page 1 = (api page).body := by
        rw [pagesJoin_succ_left]
        simp [pagesJoin]
      simp [fetchGo, hstat page, hb, h1]
  | succ fuel ih =>
      intro page acc reqs hne
      have hpage : (api page).body ≠ [] := by
        have h0 := hne 0 (by omega)
        rwa [Nat.add_zero] at h0
      obtain ⟨b, bs, hb⟩ : ∃ b bs, (api page).body = b :: bs := by
        cases h : (api page).body with
        | nil => exact absurd h hpage
        | cons b bs => exact ⟨b, bs, rfl⟩
      have hrec : fetchGo api (fuel + 1) page acc reqs
          = fetchGo api fuel (page + 1) (acc ++ (b :: bs)) (reqs + 1) := by
        simp [fetchGo, hstat page, hb]
      have hne' : ∀ i, i ≤ fuel → (api (page + 1 + i)).body ≠ [] := by
        intro i hi
        have h := hne (i + 1) (by omega)
        have h2 : page + 1 + i = page + (i + 1) := by omega
        rw [h2]; exact h
      rw [hrec, ih (page + 1) (acc ++ (b :: bs)) (reqs + 1) hne']
      congr 1
      · rw [pagesJoin_succ_left api page (fuel + 1), hb]
        simp [List.append_assoc]
      · omega

theorem fetchGo_requests_le (api : Nat → PageResp α) :
    ∀ (fuel page : Nat) (acc : List α) (reqs : Nat),
      (fetchGo api fuel page acc reqs).requests ≤ reqs + fuel + 1 := by
  intro fuel
  induction fuel with
  | zero =>
      intro page acc reqs
      by_cases h : (api page).status = 200
      · cases hb : (api page).body <;> simp [fetchGo, h, hb]
      · simp [fetchGo, h]
  | succ fuel ih =>
      intro page acc reqs
      by_cases h : (api page).status = 200
      · cases hb : (api page).body with
        | nil => simp [fetchGo, h, hb]
        | cons b bs =>
            have hr := ih (page + 1) (acc ++ (b :: bs)) (reqs + 1)
            simp [fetchGo, h, hb]
            omega
      · simp [fetchGo, h]

theorem fetchGo_mem (api : Nat → PageResp α) :
    ∀ (fuel page : Nat) (acc : List α) (reqs : Nat) (x : α),
      x ∈ (fetchGo api fuel page acc reqs).records →
      x ∈ acc ∨ ∃ i, i ≤ fuel ∧ x ∈ (api (page + i)).body := by
  intro fuel
  induction fuel with
  | zero =>
      intro page acc reqs x hx
      by_cases h : (api page).status = 200
      · cases hb : (api page).body with
        | nil =>
            simp [fetchGo, h, hb] at hx
            exact Or.inl hx
        | cons b bs =>
            simp [fetchGo, h, hb] at hx
            rcases hx with hx | hx
            · exact Or.inl hx
            · exact Or.inr ⟨0, le_refl 0, by rw [Nat.add_zero, hb]; simpa using hx⟩
      · simp [fetchGo, h] at hx
        exact Or.inl hx
  | succ fuel ih =>
      intro page acc reqs x hx
      by_cases h : (api page).status = 200
      · cases hb : (api page).body with
        | nil =>
            simp [fetchGo, h, hb] at hx
            exact Or.inl hx
        | cons b bs =>
            have hx' : x ∈ (fetchGo api fuel (page + 1) (acc ++ (b :: bs)) (reqs + 1)).records := by
              simpa [fetchGo, h, hb] using hx
            rcases ih (page + 1) (acc ++ (b :: bs)) (reqs + 1) x hx' with hx2 | ⟨i, hi, hmem⟩
            · rcases List.mem_append.1 hx2 with hx3 | hx3
              · exact Or.inl hx3
              · exact Or.inr ⟨0, by omega, by rw [Nat.add_zero, hb]; exact hx3⟩
            · refine Or.inr ⟨i + 1, by omega, ?_⟩
              have h2 : page + (i + 1) = page + 1 + i := by omega
              rw [h2]; exact hmem
      · simp [fetchGo, h] at hx
        exact Or.inl hx

theorem fetchGo_length_le (api : Nat → PageResp α) (B : Nat)
    (hB : ∀ p, ((api p).body).length ≤ B) :
    ∀ (fuel page : Nat) (acc : List α) (reqs : Nat),
      ((fetchGo api fuel page acc reqs).records).length ≤ acc.length + (fuel + 1) * B := by
  intro fuel
  induction fuel with
  | zero =>
      intro page acc reqs
      by_cases h : (api page).status = 200
      · cases hb : (api page).body with
        | nil => simp [fetchGo, h, hb]
        | cons b bs =>
            have h2 := hB page
            rw [hb] at h2
            simp [fetchGo, h, hb]
            simp at h2
            omega
      · simp [fetchGo, h]
  | succ fuel ih =>
      intro page acc reqs
      by_cases h : (api page).status = 200
      · cases hb : (api page).body with
        | nil =>
            simp [fetchGo, h, hb]
        | cons b bs =>
            have h1 := ih (page + 1) (acc ++ (b :: bs)) (reqs + 1)
            have h2 := hB page
            rw [hb] at h2
            have h3 : (fuel + 1 + 1) * B = B + (fuel + 1) * B := by ring
            simp [fetchGo, h, hb] at h1 ⊢
            simp at h2
            omega
      · simp [fetchGo, h]

theorem fetchPaged_page1_error (api : Nat → PageResp α) (limit : Nat)
    (h : (api 1).status ≠ 200) :
    fetchPaged api limit = ⟨[], 1, true, false⟩ := by
  unfold fetchPaged
  cases limit - 1 with
  | zero => simp [fetchGo, h]
  | succ n => simp [fetchGo, h]

/-! Helper lemmas about the metric computation. -/

theorem Money.zero_add (d : Money) : Money.add ⟨0, 0⟩ d = d := by
  cases d with
  | mk m e => simp [Money.add]

theorem totalSales_eq_of_ok :
    ∀ orders : List Order, totalsOk orders →
      totalSales orders = some (moneySum (orders.map rawTotal)) := by
  intro orders
  induction orders with
  | nil => intro _; rfl
  | cons o rest ih =>
      intro hok
      have ho : (orderTotal o).isSome := hok o (by simp)
      obtain ⟨t, ht⟩ := Option.isSome_iff_exists.1 ho
      have hrest : totalsOk rest := fun o' h' => hok o' (by simp [h'])
      simp [totalSales, ht, ih hrest, moneySum, rawTotal]

theorem orderTotal_eq_none_iff (o : Order) :
    orderTotal o = none ↔ ∃ s, o.total = some s ∧ parseDec s = none := by
  cases h : o.total <;> simp [orderTotal, h]

theorem totalSales_none_of_mem :
    ∀ (orders : List Order) (o : Order), o ∈ orders → orderTotal o = none →
      totalSales orders = none := by
  intro orders
  induction orders with
  | nil => intro o h; simp at h
  | cons a rest ih =>
      intro o hmem hbad
      rcases List.mem_cons.1 hmem with rfl | hmem'
      · cases hts : totalSales rest <;> simp [totalSales, hbad, hts]
      · have h := ih o hmem' hbad
        cases hoa : orderTotal a <;> simp [totalSales, hoa, h]

theorem totalSales_none_iff (orders : List Order) :
    totalSales orders = none ↔
      ∃ o ∈ orders, ∃ s, o.total = some s ∧ parseDec s = none := by
  constructor
  · intro h
    by_contra hc
    push_neg at hc
    have hok : totalsOk orders := by
      intro o hmem
      cases hto : orderTotal o with
      | none =>
          rcases (orderTotal_eq_none_iff o).1 hto with ⟨s, hs, hp⟩
          exact absurd hp (hc o hmem s hs)
      | some t => simp
    rw [totalSales_eq_of_ok orders hok] at h
    exact Option.noConfusion h
  · rintro ⟨o, hmem, s, hs, hp⟩
    exact totalSales_none_of_mem orders o hmem ((orderTotal_eq_none_iff o).2 ⟨s, hs, hp⟩)

theorem computeMetrics_eq_of_ok (orders : List Order) (products : List Product)
    (now : String) (hok : totalsOk orders) :
    computeMetrics orders products now =
      some
        { total_sales := formatUSD (moneySum (orders.map rawTotal))
          total_orders := orders.length
          products_sold := productsSold orders
          pending_orders := countStatus orders "pending"
          processing_orders := countStatus orders "processing"
          fulfilled_orders := countStatus orders "completed"
          low_stock_count := (lowStockSorted products).length
          low_stock_items := (lowStockSorted products).take 5
          last_updated := now } := by
  unfold computeMetrics
  rw [totalSales_eq_of_ok orders hok]

theorem computeMetrics_eq_some (orders : List Order) (products : List Product)
    (now : String) (ts : Money) (hts : totalSales orders = some ts) :
    computeMetrics orders products now =
      some
        { total_sales := formatUSD ts
          total_orders := orders.length
          products_sold := productsSold orders
          pending_orders := countStatus orders "pending"
          processing_orders := countStatus orders "processing"
          fulfilled_orders := countStatus orders "completed"
          low_stock_count := (lowStockSorted products).length
          low_stock_items := (lowStockSorted products).take 5
          last_updated := now } := by
  unfold computeMetrics
  rw [hts]

theorem lowStockEntry_eq_some (p : Product) (e : LowStockEntry) :
    lowStockEntry p = some e ↔
      ∃ q : Int, p.stock_quantity = some q ∧ 0 ≤ q ∧ q ≤ p.low_stock_amount.getD 5
        ∧ e = ⟨p.name.getD "Unknown", q, p.low_stock_amount.getD 5⟩ := by
  cases hq : p.stock_quantity with
  | none => simp [lowStockEntry, hq]
  | some q =>
      by_cases hle : q ≤ p.low_stock_amount.getD 5 <;> by_cases h0 : (0 : Int) ≤ q <;>
        simp [lowStockEntry, hq, hle, h0, eq_comm]

theorem insertByStock_perm (x : LowStockEntry) (l : List LowStockEntry) :
    (insertByStock x l).Perm (x :: l) := by
  induction l with
  | nil => simp [insertByStock]
  | cons y ys ih =>
      by_cases hxy : y.stock < x.stock
      · simp only [insertByStock, if_pos hxy]
        exact (ih.cons y).trans (List.Perm.swap x y ys)
      · simp only [insertByStock, if_neg hxy]
        exact List.Perm.refl _

theorem sortByStock_perm (l : List LowStockEntry) : (sortByStock l).Perm l := by
  induction l with
  | nil => simp [sortByStock]
  | cons x xs ih =>
      exact (insertByStock_perm x (sortByStock xs)).trans (ih.cons x)

theorem insertByStock_sorted (x : LowStockEntry) (l : List LowStockEntry)
    (h : List.Pairwise (fun a b : LowStockEntry => a.stock ≤ b.stock) l) :
    List.Pairwise (fun a b : LowStockEntry => a.stock ≤ b.stock) (insertByStock x l) := by
  induction l with
  | nil => simp [insertByStock]
  | cons y ys ih =>
      rcases List.pairwise_cons.1 h with ⟨hy, hys⟩
      by_cases hxy : y.stock < x.stock
      · simp only [insertByStock, if_pos hxy]
        refine List.pairwise_cons.2 ⟨?_, ih hys⟩
        intro z hz
        rcases List.mem_cons.1 ((insertByStock_perm x ys).mem_iff.1 hz) with rfl | hz2
        · exact le_of_lt hxy
        · exact hy z hz2
      · simp only [insertByStock, if_neg hxy]
        have hxle : x.stock ≤ y.stock := le_of_not_lt hxy
        refine List.pairwise_cons.2 ⟨?_, h⟩
        intro z hz
        rcases List.mem_cons.1 hz with rfl | hz2
        · exact hxle
        · exact le_trans hxle (hy z hz2)

theorem sortByStock_sorted (l : List LowStockEntry) :
    List.Pairwise (fun a b : LowStockEntry => a.stock ≤ b.stock) (sortByStock l) := by
  induction l with
  | nil => simp [sortByStock]
  | cons x xs ih => exact insertByStock_sorted x (sortByStock xs) ih

/-! Claim C1. -/

/-- C1 counterexample: with HTTP 500 on page 1 of orders the run does not
abort: get_woocommerce_data still returns a record and the webhook send is
invoked, against the claim that no POST is attempted and no record is
produced. -/
theorem http_error_counterexample :
    (u500.ordersApi 1).status = 500
    ∧ sendInvoked u500 "t" = true
    ∧ getWoocommerceData u500 "t" ≠ none := by
  decide

/-- C1 (amended): a non-success HTTP status on page 1 of orders stops the
orders pagination loop and is logged as a fetch error, but the run
continues: get_woocommerce_data returns a record aggregated over zero
orders (total_sales of zero dollars) and send_to_trmnl is invoked with
that payload. -/
theorem http_error_run_continues (u : Upstream) (now : String)
    (h : (u.ordersApi 1).status ≠ 200) :
    (ordersFetch u.ordersApi).errored = true
    ∧ (∃ m : Metrics, getWoocommerceData u now = some ⟨m⟩
        ∧ m.total_orders = 0 ∧ m.total_sales = "$0.00" ∧ m.products_sold = 0)
    ∧ sendInvoked u now = true := by
  have hfe : ordersFetch u.ordersApi = ⟨[], 1, true, false⟩ :=
    fetchPaged_page1_error u.ordersApi 100 h
  have hget : getWoocommerceData u now =
      some ⟨{ total_sales := formatUSD (moneySum (List.map rawTotal []))
              total_orders := List.length ([] : List Order)
              products_sold := productsSold []
              pending_orders := countStatus [] "pending"
              processing_orders := countStatus [] "processing"
              fulfilled_orders := countStatus [] "completed"
              low_stock_count := (lowStockSorted (productsFetch u.productsApi).records).length
              low_stock_items := (lowStockSorted (productsFetch u.productsApi).records).take 5
              last_updated := now }⟩ := by
    unfold getWoocommerceData
    rw [hfe]
    rfl
  refine ⟨by rw [hfe], ⟨_, hget, rfl, ?_, rfl⟩, ?_⟩
  · show formatUSD (moneySum (List.map rawTotal [])) = "$0.00"
    decide
  · unfold sendInvoked
    rw [hget]
    rfl

/-- C1 witness: the amended statement at the concrete upstream whose orders
resource answers HTTP 500 on every page. -/
theorem http_error_run_continues_witness :
    (ordersFetch u500.ordersApi).errored = true
    ∧ (∃ m : Metrics, getWoocommerceData u500 "t" = some ⟨m⟩
        ∧ m.total_orders = 0 ∧ m.total_sales = "$0.00" ∧ m.products_sold = 0)
    ∧ sendInvoked u500 "t" = true :=
  http_error_run_continues u500 "t" (by decide)

/-! Claim C2. -/

/-- C2 counterexample: a single cancelled order with total 10.00 and one
line item of quantity 2 contributes to total_sales, total_orders and
products_sold, against the claim that cancelled orders contribute
nothing. -/
theorem cancelled_excluded_counterexample :
    ordCancelled.status = some "cancelled"
    ∧ (computeMetrics [ordCancelled] [] "t").map Metrics.total_sales = some "$10.00"
    ∧ (computeMetrics [ordCancelled] [] "t").map Metrics.total_orders = some 1
    ∧ (computeMetrics [ordCancelled] [] "t").map Metrics.products_sold = some 2 := by
  decide

/-- C2 (amended): no status filter is applied to the money and volume
aggregates: total_sales is the formatted sum of total over every fetched
order including cancelled ones, total_orders counts every fetched order,
products_sold sums line item quantities over every fetched order, and only
fulfilled_orders and pending_orders are status counts (completed resp.
pending), which exclude cancelled orders merely because a cancelled order
does not carry those statuses. -/
theorem cancelled_included (orders : List Order) (products : List Product)
    (now : String) (hok : totalsOk orders) :
    ∃ m : Metrics, computeMetrics orders products now = some m
      ∧ m.total_sales = formatUSD (moneySum (orders.map rawTotal))
      ∧ m.total_orders = orders.length
      ∧ m.products_sold = (orders.map orderUnits).sum
      ∧ m.fulfilled_orders = (orders.filter (fun o => o.status == some "completed")).length
      ∧ m.pending_orders = (orders.filter (fun o => o.status == some "pending")).length := by
  refine ⟨_, computeMetrics_eq_of_ok orders products now hok, rfl, rfl, rfl, ?_, ?_⟩
  · exact List.countP_eq_length_filter _ _
  · exact List.countP_eq_length_filter _ _

/-- C2 witness: the amended statement at the one-element cancelled order
collection. -/
theorem cancelled_included_witness :
    ∃ m : Metrics, computeMetrics [ordCancelled] [] "t" = some m
      ∧ m.total_sales = formatUSD (moneySum ([ordCancelled].map rawTotal))
      ∧ m.total_orders = [ordCancelled].length
      ∧ m.products_sold = ([ordCancelled].map orderUnits).sum
      ∧ m.fulfilled_orders
          = ([ordCancelled].filter (fun o => o.status == some "completed")).length
      ∧ m.pending_orders
          = ([ordCancelled].filter (fun o => o.status == some "pending")).length :=
  cancelled_included [ordCancelled] [] "t" (by decide)

/-! Claim C3. -/

/-- C3 counterexample: with a raw sales sum of 1234.5 the output string is
the comma-grouped dollar form, not the claimed euro form: no currency
setting is consulted anywhere in the code. -/
theorem currency_counterexample :
    totalSales [ordEUR] = some ⟨123450, 2⟩
    ∧ (computeMetrics [ordEUR] [] "t").map Metrics.total_sales = some "$1,234.50"
    ∧ (computeMetrics [ordEUR] [] "t").map Metrics.total_sales ≠ some "€1234.50" := by
  decide

/-- C3 (amended): the total_sales field is always the hard coded dollar
rendering of the raw sum over all fetched orders: a dollar sign prefix,
comma thousands grouping and two decimals; in particular the raw sum
1234.5 renders as the string with a dollar sign and a comma, and no store
currency setting enters the computation. -/
theorem usd_format_hardcoded (orders : List Order) (products : List Product)
    (now : String) (hok : totalsOk orders) :
    ∃ m : Metrics, computeMetrics orders products now = some m
      ∧ m.total_sales = formatUSD (moneySum (orders.map rawTotal))
      ∧ (∃ rest, formatUSD (moneySum (orders.map rawTotal)) = "$" ++ rest)
      ∧ formatUSD ⟨12345, 1⟩ = "$1,234.50" := by
  exact ⟨_, computeMetrics_eq_of_ok orders products now hok, rfl, ⟨_, rfl⟩, by decide⟩

/-- C3 witness: the amended statement at the order collection summing to a
raw total of 1234.5. -/
theorem usd_format_hardcoded_witness :
    ∃ m : Metrics, computeMetrics [ordEUR] [] "t" = some m
      ∧ m.total_sales = formatUSD (moneySum ([ordEUR].map rawTotal))
      ∧ (∃ rest, formatUSD (moneySum ([ordEUR].map rawTotal)) = "$" ++ rest)
      ∧ formatUSD ⟨12345, 1⟩ = "$1,234.50" :=
  usd_format_hardcoded [ordEUR] [] "t" (by decide)

/-! Claim C4. -/

/-- C4: the orders pagination loop requests pages from 1, stops at the
first empty page returning the in-order concatenation of the non-empty
pages with one request per page seen, and when the first 100 pages are all
non-empty it returns the accumulated 100 pages with the limit flag set and
the warning line surfaced. -/
theorem orders_pagination (api : Nat → PageResp Order)
    (hstat : ∀ i, (api i).status = 200) :
    (∀ k, k < 100 → (api (1 + k)).body = [] →
        (∀ i, i < k → (api (1 + i)).body ≠ []) →
        ordersFetch api = ⟨pagesJoin api 1 k, k + 1, false, false⟩)
    ∧ ((∀ i, i < 100 → (api (1 + i)).body ≠ []) →
        ordersFetch api = ⟨pagesJoin api 1 100, 100, false, true⟩
        ∧ ∀ papi : Nat → PageResp Product, runWarnings ⟨api, papi⟩ ≠ []) := by
  constructor
  · intro k hk hempty hne
    unfold ordersFetch fetchPaged
    have h := fetchGo_stop api hstat k 99 1 [] 0 (by omega) hempty hne
    simpa using h
  · intro hne
    have h100 : ordersFetch api = ⟨pagesJoin api 1 100, 100, false, true⟩ := by
      unfold ordersFetch fetchPaged
      have h := fetchGo_limitRun api hstat 99 1 [] 0 (fun i hi => hne i (by omega))
      simpa using h
    refine ⟨h100, ?_⟩
    intro papi
    have hax : (⟨api, papi⟩ : Upstream).ordersApi = api := rfl
    unfold runWarnings
    rw [hax, h100]
    simp

/-- C4 witness: pages [[A, B], [C], []] yield the records [A, B, C] with
exactly 3 page requests, no fetch error and no limit warning. -/
theorem orders_pagination_witness :
    ordersFetch apiABC =
      ⟨[⟨some "completed", some "1.00", []⟩, ⟨some "pending", some "2.00", []⟩,
        ⟨some "processing", some "3.00", []⟩], 3, false, false⟩ := by
  have hstat : ∀ i, (apiABC i).status = 200 := by
    intro i
    unfold apiABC
    by_cases h1 : i = 1 <;> by_cases h2 : i = 2 <;> simp [h1, h2]
  have h := (orders_pagination apiABC hstat).1 2 (by omega) (by decide) (by decide)
  exact h.trans (by decide)

/-! Claim C5. -/

/-- C5 counterexample: a product with stock quantity -2 and default
threshold 5 satisfies the claim filter (quantity at or below threshold
with stock management on) yet the code excludes it through its additional
non-negativity check, so the low stock result is not the claimed set. -/
theorem lowstock_counterexample :
    prodNeg.stock_quantity = some (-2)
    ∧ ((-2 : Int) ≤ 5)
    ∧ lowStockSpecAll [prodNeg] = [⟨"Gadget", -2, 5⟩]
    ∧ lowStockAll [prodNeg] = []
    ∧ (computeMetrics [] [prodNeg] "t").map Metrics.low_stock_count = some 0 := by
  decide

/-- C5 (amended): the low stock list consists exactly of the fetched
products (the fetch already requests stock management on and in-stock from
the server) whose stock_quantity is a present, non-negative number at or
below the per-product threshold defaulting to 5; it is sorted ascending by
stock, the lowest 5 entries are surfaced as low_stock_items, and
low_stock_count is the total number of low stock products. -/
theorem lowstock_amended (ps : List Product) :
    (∀ e : LowStockEntry, e ∈ lowStockSorted ps ↔
        ∃ p ∈ ps, ∃ q : Int, p.stock_quantity = some q ∧ 0 ≤ q
          ∧ q ≤ p.low_stock_amount.getD 5
          ∧ e = ⟨p.name.getD "Unknown", q, p.low_stock_amount.getD 5⟩)
    ∧ List.Pairwise (fun a b : LowStockEntry => a.stock ≤ b.stock) (lowStockSorted ps)
    ∧ (lowStockSorted ps).length = (lowStockAll ps).length
    ∧ (∀ (orders : List Order) (now : String) (m : Metrics),
        computeMetrics orders ps now = some m →
        m.low_stock_items = (lowStockSorted ps).take 5
        ∧ m.low_stock_count = (lowStockAll ps).length) := by
  refine ⟨?_, ?_, ?_, ?_⟩
  · intro e
    unfold lowStockSorted
    rw [(sortByStock_perm (lowStockAll ps)).mem_iff]
    simp [lowStockAll, List.mem_filterMap, lowStockEntry_eq_some]
  · unfold lowStockSorted
    exact sortByStock_sorted _
  · unfold lowStockSorted
    exact (sortByStock_perm _).length_eq
  · intro orders now m hm
    cases hts : totalSales orders with
    | none =>
        unfold computeMetrics at hm
        rw [hts] at hm
        exact Option.noConfusion hm
    | some ts =>
        rw [computeMetrics_eq_some orders ps now ts hts] at hm
        have h2 := Option.some.inj hm
        constructor
        · rw [← h2]
        · rw [← h2]
          show (lowStockSorted ps).length = (lowStockAll ps).length
          unfold lowStockSorted
          exact (sortByStock_perm _).length_eq

/-- C5 witness: the amended statement at a one-product collection with
stock 3 and default threshold. -/
theorem lowstock_amended_witness :
    (⟨"A", 3, 5⟩ : LowStockEntry) ∈ lowStockSorted [prodA]
    ∧ (computeMetrics [] [prodA] "t").map Metrics.low_stock_count = some 1 := by
  have h := lowstock_amended [prodA]
  constructor
  · exact (h.1 ⟨"A", 3, 5⟩).2 ⟨prodA, by decide, 3, rfl, by decide, by decide, by decide⟩
  · cases hm : computeMetrics [] [prodA] "t" with
    | none => exact absurd hm (by decide)
    | some m =>
        have h2 := (h.2.2.2 [] "t" m hm).2
        simp [h2]
        decide

/-! Claim C6. -/

/-- C6: a present but non-numeric order total fails the whole aggregation:
the sum is no value and no metrics record is produced, so no default is
ever substituted for the malformed figure. -/
theorem malformed_total_fails (orders : List Order) (products : List Product)
    (now : String) (o : Order) (s : String)
    (hmem : o ∈ orders) (hts : o.total = some s) (hbad : parseDec s = none) :
    totalSales orders = none ∧ computeMetrics orders products now = none := by
  have h : orderTotal o = none := by
    simp [orderTotal, hts, hbad]
  have h1 := totalSales_none_of_mem orders o hmem h
  refine ⟨h1, ?_⟩
  unfold computeMetrics
  rw [h1]

/-- C6 witness: the statement at a one-order collection whose total is the
non-numeric string abc. -/
theorem malformed_total_fails_witness :
    totalSales [ordBad] = none ∧ computeMetrics [ordBad] [] "t" = none :=
  malformed_total_fails [ordBad] [] "t" ordBad "abc" (by decide) rfl (by decide)

/-! Claim C7. -/

/-- C7: with the debug flag set, send_to_trmnl posts nothing, returns
success, and prints exactly the payload that the non-debug run would have
posted; the network function is never consulted. -/
theorem debug_mode_no_post (net : TrmnlData → Nat) (d : TrmnlData) :
    (sendToTrmnl true net d).posted = none
    ∧ (sendToTrmnl true net d).success = true
    ∧ (sendToTrmnl true net d).printed = some d
    ∧ (sendToTrmnl true net d).printed = (sendToTrmnl false net d).posted := by
  simp [sendToTrmnl]

/-! Claim C8. -/

/-- C8: products_sold is non-negative whenever all line item quantities
are, and it is invariant under any permutation of the order collection. -/
theorem products_sold_pure (orders orders2 : List Order)
    (hperm : orders.Perm orders2)
    (hnn : ∀ o ∈ orders, ∀ it ∈ o.line_items, 0 ≤ it.quantity.getD 0) :
    0 ≤ productsSold orders ∧ productsSold orders = productsSold orders2 := by
  constructor
  · unfold productsSold
    apply List.sum_nonneg
    intro x hx
    rcases List.mem_map.1 hx with ⟨o, ho, rfl⟩
    unfold orderUnits
    apply List.sum_nonneg
    intro y hy
    rcases List.mem_map.1 hy with ⟨it, hit, rfl⟩
    exact hnn o ho it hit
  · exact (hperm.map orderUnits).sum_eq

/-- C8 witness: the statement at a two-order collection and its swap. -/
theorem products_sold_pure_witness :
    0 ≤ productsSold [ordTwoItems, ordNoTotal]
    ∧ productsSold [ordTwoItems, ordNoTotal] = productsSold [ordNoTotal, ordTwoItems] :=
  products_sold_pure [ordTwoItems, ordNoTotal] [ordNoTotal, ordTwoItems]
    (by decide) (by decide)

/-! Claim C9. -/

/-- C9: the products fetch issues at most 5 page requests, every record it
returns comes from one of pages 1 to 5 (later pages can never contribute
to the low stock data), with pages of at most 100 products it returns at
most 500 records, and the warning output of a run never depends on the
products resource. -/
theorem products_fetch_cap (api : Nat → PageResp Product) :
    (productsFetch api).requests ≤ 5
    ∧ (∀ x ∈ (productsFetch api).records, ∃ p, 1 ≤ p ∧ p ≤ 5 ∧ x ∈ (api p).body)
    ∧ ((∀ p, ((api p).body).length ≤ 100) → ((productsFetch api).records).length ≤ 500)
    ∧ (∀ u u2 : Upstream, u.ordersApi = u2.ordersApi → runWarnings u = runWarnings u2) := by
  refine ⟨?_, ?_, ?_, ?_⟩
  · have h := fetchGo_requests_le api 4 1 [] 0
    simpa [productsFetch, fetchPaged] using h
  · intro x hx
    have hx2 : x ∈ (fetchGo api 4 1 ([] : List Product) 0).records := by
      simpa [productsFetch, fetchPaged] using hx
    rcases fetchGo_mem api 4 1 [] 0 x hx2 with h | ⟨i, hi, hmem⟩
    · simp at h
    · exact ⟨1 + i, by omega, by omega, hmem⟩
  · intro hB
    have h := fetchGo_length_le api 100 hB 4 1 [] 0
    simpa [productsFetch, fetchPaged] using h
  · intro u u2 h
    unfold runWarnings
    rw [h]

/-- C9 witness: the statement at a products resource that never returns an
empty page, where the cap is actually reached. -/
theorem products_fetch_cap_witness :
    (productsFetch apiProdConst).requests ≤ 5
    ∧ ((productsFetch apiProdConst).records).length ≤ 500 :=
  ⟨(products_fetch_cap apiProdConst).1,
   (products_fetch_cap apiProdConst).2.2.1 (fun p => by simp [apiProdConst])⟩

/-! Claim C10. -/

/-- C10: an order lacking the total field does not fail aggregation: it
contributes 0 to the sales sum while still being counted in total_orders,
and the sum fails exactly when some order carries a present but
non-numeric total. -/
theorem missing_total_defaults (pre post : List Order) (products : List Product)
    (now : String) (o : Order) (h : o.total = none) :
    totalSales (pre ++ o :: post) = totalSales (pre ++ post)
    ∧ (∀ m : Metrics, computeMetrics (pre ++ o :: post) products now = some m →
        m.total_orders = pre.length + post.length + 1)
    ∧ (∀ orders : List Order, totalSales orders = none ↔
        ∃ o2 ∈ orders, ∃ s, o2.total = some s ∧ parseDec s = none) := by
  have hzero : orderTotal o = some ⟨0, 0⟩ := by simp [orderTotal, h]
  refine ⟨?_, ?_, fun orders => totalSales_none_iff orders⟩
  · induction pre with
    | nil =>
        cases hts : totalSales post with
        | none => simp [totalSales, hzero, hts]
        | some s2 => simp [totalSales, hzero, hts, Money.zero_add]
    | cons a pre ih =>
        cases hoa : orderTotal a with
        | none =>
            cases h1 : totalSales (pre ++ o :: post) <;>
              cases h2 : totalSales (pre ++ post) <;>
                simp [totalSales, hoa, h1, h2]
        | some t =>
            simp [totalSales, hoa, ih]
  · intro m hm
    cases hts : totalSales (pre ++ o :: post) with
    | none =>
        unfold computeMetrics at hm
        rw [hts] at hm
        exact Option.noConfusion hm
    | some ts =>
        rw [computeMetrics_eq_some (pre ++ o :: post) products now ts hts] at hm
        have h2 := Option.some.inj hm
        rw [← h2]
        show (pre ++ o :: post).length = pre.length + post.length + 1
        simp [List.length_append]
        omega

/-- C10 witness: the statement at a one-order collection whose single
order has no total field. -/
theorem missing_total_defaults_witness :
    totalSales [ordNoTotal] = totalSales []
    ∧ (computeMetrics [ordNoTotal] [] "t").map Metrics.total_orders = some 1 := by
  have h := missing_total_defaults [] [] [] "t" ordNoTotal rfl
  refine ⟨h.1, ?_⟩
  cases hm : computeMetrics [ordNoTotal] [] "t" with
  | none => exact absurd hm (by decide)
  | some m =>
      have h2 := h.2.1 m hm
      simp [h2]

end Woo
